import Mathlib

set_option maxRecDepth 4000

/-!
Verification of the CSV ingestion and type-inference engine of this
repository (the testdata-source CSV loader) against its specification,
together with two UI-level helpers (the CSV file editor change handler and
the unified alert list truncation).

The ingestion engine itself is not present in this source snapshot (only
its test file is), so its definitions below are modelled from the
specification; each such definition carries a doc comment starting with
`Modelled from the spec:`.  The two UI helpers are translated directly
from the TypeScript source.
-/

namespace CsvSpec

/-! ### Character-level helpers -/

/-- Whitespace test used by token trimming: space, tab, carriage return,
newline. -/
def isWSChar (c : Char) : Bool :=
  decide (c.toNat = 32 ∨ c.toNat = 9 ∨ c.toNat = 13 ∨ c.toNat = 10)

/-- ASCII decimal digit test. -/
def isDigitChar (c : Char) : Bool :=
  decide (48 ≤ c.toNat ∧ c.toNat ≤ 57)

/-- ASCII lower-casing, used for the case-insensitive boolean literals. -/
def asciiToLower (c : Char) : Char :=
  if 65 ≤ c.toNat ∧ c.toNat ≤ 90 then Char.ofNat (c.toNat + 32) else c

/-- Split a character list on a separator character.  Splitting the empty
list yields one empty group, and a trailing separator yields a trailing
empty group (nothing is dropped). -/
def splitChar (sep : Char) : List Char → List (List Char)
  | [] => [[]]
  | c :: cs =>
    if c = sep then [] :: splitChar sep cs
    else
      match splitChar sep cs with
      | [] => [[c]]
      | t :: ts => (c :: t) :: ts

/-- Drop leading and trailing whitespace from a character list. -/
def trimChars (cs : List Char) : List Char :=
  ((cs.dropWhile isWSChar).reverse.dropWhile isWSChar).reverse

/-! ### Tokenizer -/

/-- Modelled from the spec: the Tokenizer (missing source `csv_data.go`).
Splits one line of text on the fixed comma delimiter into
whitespace-trimmed tokens; empty trailing tokens are preserved as
empty-string tokens. -/
def tokenizeLine (line : String) : List String :=
  (splitChar ',' line.data).map (fun cs => String.mk (trimChars cs))

/-! ### Token parsers -/

/-- Modelled from the spec: the null-token test of the missing ingestion
engine.  A (already trimmed) token is a null token when it is the empty
string or the case-sensitive literal `null`. -/
def isNullToken (t : String) : Bool :=
  decide (t = "" ∨ t = "null")

/-- Boolean literal recognition on an already lower-cased character list:
`t`/`true` parse to `true` and `f`/`false` parse to `false`. -/
def parseBoolChars (l : List Char) : Option Bool :=
  if l = ['t'] ∨ l = ['t', 'r', 'u', 'e'] then some true
  else if l = ['f'] ∨ l = ['f', 'a', 'l', 's', 'e'] then some false
  else none

/-- Modelled from the spec: case-insensitive boolean literal parsing of
the missing ingestion engine (`t`, `f`, `true`, `false`). -/
def parseBool (t : String) : Option Bool :=
  parseBoolChars (t.data.map asciiToLower)

/-- Numeric value of a digit list, most significant digit first. -/
def digitsToNat (ds : List Char) : Nat :=
  ds.foldl (fun a c => a * 10 + (c.toNat - 48)) 0

/-- Parse a non-empty all-digit character list as a natural number. -/
def parseNatDigits (cs : List Char) : Option Nat :=
  if cs ≠ [] ∧ cs.all isDigitChar then some (digitsToNat cs) else none

/-- Modelled from the spec: base-10 signed integer parsing (optional sign,
digits only, no fractional part and no exponent), before any width check. -/
def parseIntRaw (cs : List Char) : Option Int :=
  match cs with
  | [] => none
  | c :: rest =>
    if c = '-' then (parseNatDigits rest).map (fun n => -(Int.ofNat n))
    else if c = '+' then (parseNatDigits rest).map Int.ofNat
    else (parseNatDigits (c :: rest)).map Int.ofNat

/-- Modelled from the spec: 64-bit signed integer parsing of the missing
ingestion engine; a syntactically valid integer whose value leaves
`[-2^63, 2^63 - 1]` is a parse overflow and yields `none`. -/
def parseInt64 (t : String) : Option Int :=
  match parseIntRaw t.data with
  | none => none
  | some v => if -(2 ^ 63) ≤ v ∧ v ≤ 2 ^ 63 - 1 then some v else none

/-- Exact decimal value `num / 10 ^ scale`, the shallow model of a parsed
decimal number (kept exact rather than rounded to binary floating point). -/
structure Dec where
  num : Int
  scale : Nat
deriving DecidableEq

/-- Split the longest digit run off the front of a character list. -/
def takeDigits : List Char → List Char × List Char
  | [] => ([], [])
  | c :: cs =>
    if isDigitChar c then
      match takeDigits cs with
      | (ds, rest) => (c :: ds, rest)
    else ([], c :: cs)

/-- Read an optional fractional part: a dot followed by a digit run. -/
def takeFrac (cs : List Char) : List Char × List Char :=
  match cs with
  | [] => ([], [])
  | c :: r => if c = '.' then takeDigits r else ([], c :: r)

/-- Mantissa value of integer digits `ip` and fraction digits `fp`. -/
def mantOf (ip fp : List Char) : Dec :=
  ⟨Int.ofNat (digitsToNat ip * 10 ^ fp.length + digitsToNat fp), fp.length⟩

/-- Scale a decimal value by `10 ^ e`. -/
def applyExp (d : Dec) (e : Int) : Dec :=
  if 0 ≤ e then ⟨d.num * (10 : Int) ^ e.toNat, d.scale⟩
  else ⟨d.num, d.scale + e.natAbs⟩

/-- Modelled from the spec: unsigned decimal-number parsing of the missing
ingestion engine: digits with an optional fractional part (at least one
digit overall) and an optional signed exponent. -/
def parseUnsignedDec (cs : List Char) : Option Dec :=
  if (takeDigits cs).1 = [] ∧ (takeFrac (takeDigits cs).2).1 = [] then none
  else
    match (takeFrac (takeDigits cs).2).2 with
    | [] => some (mantOf (takeDigits cs).1 (takeFrac (takeDigits cs).2).1)
    | c :: rest =>
      if c = 'e' ∨ c = 'E' then
        match parseIntRaw rest with
        | some e => some (applyExp (mantOf (takeDigits cs).1 (takeFrac (takeDigits cs).2).1) e)
        | none => none
      else none

/-- Signed decimal-number parsing: an optional leading sign before the
unsigned form. -/
def parseSignedDec (cs : List Char) : Option Dec :=
  match cs with
  | [] => none
  | c :: rest =>
    if c = '-' then (parseUnsignedDec rest).map (fun d => ⟨-d.num, d.scale⟩)
    else if c = '+' then parseUnsignedDec rest
    else parseUnsignedDec (c :: rest)

/-- Largest finite 64-bit floating point magnitude, `(2^53 - 1) * 2^971`,
written out as a decimal literal so that comparisons evaluate by
`decide`. -/
def float64MaxNat : Nat := 179769313486231570814527423731704356798070567525844996598917476803157260780028538760589558632766878171540458953514382464234321326889464182768467546703537516986049910576551282076245490090389328944075868508455133942304583236903222948165808559332123348274797826204144723168738177180919299881250404026184124858368

/-- A decimal value lies in the 64-bit float-compatible range when its
magnitude does not exceed the largest finite 64-bit float. -/
def inFloat64Range (d : Dec) : Bool :=
  decide (d.num.natAbs ≤ float64MaxNat * 10 ^ d.scale)

/-- Modelled from the spec: float parsing of the missing ingestion engine;
a signed decimal number whose value exceeds the 64-bit float-compatible
range is a parse overflow and yields `none`. -/
def parseFloat64 (t : String) : Option Dec :=
  match parseSignedDec t.data with
  | none => none
  | some d => if inFloat64Range d then some d else none

/-- A token parses under the Boolean candidate type. -/
def isBoolTok (t : String) : Bool := (parseBool t).isSome

/-- A token parses under the Integer candidate type. -/
def isIntTok (t : String) : Bool := (parseInt64 t).isSome

/-- A token parses under the Float candidate type. -/
def isFloatTok (t : String) : Bool := (parseFloat64 t).isSome

/-! ### Data model -/

/-- The four semantic column types of the engine. -/
inductive FieldType
  | boolean
  | integer
  | float
  | str
deriving DecidableEq

/-- A nullable cell value: the closed tagged variant of the spec. -/
inductive Value
  | null
  | vBool (b : Bool)
  | vInt (i : Int)
  | vFloat (d : Dec)
  | vStr (s : String)
deriving DecidableEq

/-- A Field: a named, typed, ordered column of nullable values. -/
structure Field where
  name : String
  type : FieldType
  values : List Value
deriving DecidableEq

/-- A Frame: a named, ordered sequence of Fields. -/
structure Frame where
  name : String
  fields : List Field
deriving DecidableEq

/-- Error kinds of the ingestion engine. -/
inductive CsvError
  | invalidFileName (name : String)
  | fileNotFound (name : String)
  | rowWidthMismatch (rowIndex expected actual : Nat)
deriving DecidableEq

/-! ### Type Classifier and Column Builder -/

/-- The non-null tokens of a column, the ones that participate in type
inference. -/
def nonNullTokens (tokens : List String) : List String :=
  tokens.filter (fun t => !isNullToken t)

/-- Modelled from the spec: the Type Classifier of the missing ingestion
engine.  Candidate types are tried in the fixed order Boolean, Integer,
Float, String; the first candidate under which every non-null token parses
wins, and a column with zero non-null tokens defaults to String. -/
def classifyColumn (tokens : List String) : FieldType :=
  if (nonNullTokens tokens).isEmpty then FieldType.str
  else if (nonNullTokens tokens).all isBoolTok then FieldType.boolean
  else if (nonNullTokens tokens).all isIntTok then FieldType.integer
  else if (nonNullTokens tokens).all isFloatTok then FieldType.float
  else FieldType.str

/-- Modelled from the spec: the Column Builder of the missing ingestion
engine.  A null token becomes `Value.null` regardless of the committed
type; any other token is parsed under the committed type (classification
guarantees this succeeds). -/
def buildValue (ty : FieldType) (t : String) : Value :=
  if isNullToken t then Value.null
  else
    match ty with
    | FieldType.boolean =>
      match parseBool t with
      | some b => Value.vBool b
      | none => Value.vStr t
    | FieldType.integer =>
      match parseInt64 t with
      | some i => Value.vInt i
      | none => Value.vStr t
    | FieldType.float =>
      match parseFloat64 t with
      | some d => Value.vFloat d
      | none => Value.vStr t
    | FieldType.str => Value.vStr t

/-- Build one typed Field from a name and the column's token sequence:
classify the whole column, then build every value under the committed
type. -/
def mkField (name : String) (tokens : List String) : Field :=
  ⟨name, classifyColumn tokens, tokens.map (buildValue (classifyColumn tokens))⟩

/-- Modelled from the spec: the single-line convenience entry used by the
tests — one line of text becomes one typed column. -/
def csvLineToField (line : String) : Field :=
  mkField "" (tokenizeLine line)

/-! ### Row-to-Column Transposer and Frame Assembler -/

/-- The non-blank lines of a CSV body: the text split on newlines with
blank or whitespace-only lines skipped entirely. -/
def nonBlankLines (text : String) : List String :=
  ((splitChar '\n' text.data).map (fun cs => String.mk cs)).filter
    (fun l => !(trimChars l.data).isEmpty)

/-- The column names of a CSV body: the tokenized header row when a header
is present, otherwise positional `Field N` placeholders sized by the first
data row. -/
def headerTokens (hasHeader : Bool) (text : String) : List String :=
  match nonBlankLines text with
  | [] => []
  | first :: _ =>
    if hasHeader then tokenizeLine first
    else (List.range (tokenizeLine first).length).map
      (fun i => "Field " ++ toString (i + 1))

/-- The data rows of a CSV body: every non-blank line, minus the header
row when a header is present. -/
def dataRowsOf (hasHeader : Bool) (text : String) : List String :=
  match nonBlankLines text with
  | [] => []
  | first :: rest => if hasHeader then rest else first :: rest

/-- Find the first data row whose token count differs from the expected
width `w`; returns its row index and its actual width. -/
def findWidthMismatch (w : Nat) : List (List String) → Nat → Option (Nat × Nat)
  | [], _ => none
  | r :: rs, i =>
    if r.length = w then findWidthMismatch w rs (i + 1) else some (i, r.length)

/-- Transpose validated rows into one Field per column, preserving source
column order. -/
def buildFields (names : List String) (rows : List (List String)) : List Field :=
  (List.range names.length).map
    (fun j => mkField (names.getD j "") (rows.map (fun r => r.getD j "")))

/-- Validate row widths and assemble the Frame, or fail with a
RowWidthMismatch naming the offending row and both widths. -/
def assembleOrError (frameName : String) (names : List String)
    (rows : List (List String)) : Except CsvError Frame :=
  match findWidthMismatch names.length rows 0 with
  | some p => Except.error (CsvError.rowWidthMismatch p.1 names.length p.2)
  | none => Except.ok ⟨frameName, buildFields names rows⟩

/-- Modelled from the spec: the Row-to-Column Transposer plus Frame
Assembler of the missing ingestion engine (`loadCsvContent`): split the
body into non-blank lines, take the header (or synthesize positional
names), validate every data row's width, transpose and classify each
column, and assemble the Frame. -/
def readCSV (hasHeader : Bool) (frameName : String) (text : String) :
    Except CsvError Frame :=
  assembleOrError frameName (headerTokens hasHeader text)
    ((dataRowsOf hasHeader text).map tokenizeLine)

/-! ### File Resolver -/

/-- Walk the slash-separated segments of a relative path keeping the depth
below the base directory; `..` pops a level and popping past the base
means the path escapes (`none`). -/
def resolveDepth : Nat → List String → Option Nat
  | d, [] => some d
  | d, s :: rest =>
    if s = "" ∨ s = "." then resolveDepth d rest
    else if s = ".." then
      match d with
      | 0 => none
      | Nat.succ d2 => resolveDepth d2 rest
    else resolveDepth (d + 1) rest

/-- A path is absolute when it starts with a slash. -/
def isAbsolutePath (t : String) : Bool :=
  match t.data with
  | '/' :: _ => true
  | _ => false

/-- Modelled from the spec: the File Resolver containment check of the
missing ingestion engine.  A name is valid exactly when it is not absolute
and its normalized resolution never leaves the fixed base data
directory. -/
def isValidCsvName (name : String) : Bool :=
  !isAbsolutePath name &&
    (resolveDepth 0 ((splitChar '/' name.data).map (fun cs => String.mk cs))).isSome

/-- Base name of a path without its extension, used as the Frame's display
name. -/
def baseNameNoExt (name : String) : String :=
  String.mk ((splitChar '.' ((splitChar '/' name.data).getLastD [])).headD [])

/-- Modelled from the spec: `loadCsvFile` of the missing ingestion engine.
The file system is passed as a lookup from names to contents; an invalid
(escaping) name fails with InvalidFileName before any lookup, a missing
file fails with FileNotFound, and otherwise the content is ingested as CSV
with a header row. -/
def loadCsvFile (fs : String → Option String) (name : String) :
    Except CsvError Frame :=
  if isValidCsvName name then
    match fs name with
    | some content => readCSV true (baseNameNoExt name) content
    | none => Except.error (CsvError.fileNotFound name)
  else Except.error (CsvError.invalidFileName name)

/-! ### Serialization (black-box encoder shape for determinism claims) -/

/-- Wire type tag of a field type (`boolean`, `number`, or `string`). -/
def typeTag : FieldType → String
  | FieldType.boolean => "boolean"
  | FieldType.integer => "number"
  | FieldType.float => "number"
  | FieldType.str => "string"

/-- Serialize one cell value; nulls are the JSON `null` literal. -/
def serializeValue : Value → String
  | Value.null => "null"
  | Value.vBool true => "true"
  | Value.vBool false => "false"
  | Value.vInt i => toString i
  | Value.vFloat d => toString d.num ++ "E-" ++ toString d.scale
  | Value.vStr s => "\"" ++ s ++ "\""

/-- Join serialized pieces with commas. -/
def joinStrs : List String → String
  | [] => ""
  | [x] => x
  | x :: y :: rest => x ++ "," ++ joinStrs (y :: rest)

/-- Schema entry for one field. -/
def serializeField (f : Field) : String :=
  "\x7b\"name\":\"" ++ f.name ++ "\",\"type\":\"" ++ typeTag f.type ++
    "\",\"nullable\":true\x7d"

/-- Serialize a whole Frame into the schema+data JSON shape. -/
def serializeFrame (fr : Frame) : String :=
  "\x7b\"schema\":\x7b\"fields\":[" ++ joinStrs (fr.fields.map serializeField) ++
    "]\x7d,\"data\":\x7b\"values\":[" ++
    joinStrs (fr.fields.map
      (fun f => "[" ++ joinStrs (f.values.map serializeValue) ++ "]")) ++
    "]\x7d\x7d"

end CsvSpec

namespace UiSpec

/-- The editor query object: `csvFileName` plus all the other query fields,
kept abstract as `others`.  Translated from `CSVFileEditor` in the panel
source. -/
structure EditorQuery (A : Type) where
  others : A
  csvFileName : Option String

/-- The object the `CSVFileEditor` change handler passes to `onChange`:
the incoming query spread with `csvFileName` replaced by the newly
selected value. -/
def onChangeFileName {A : Type} (query : EditorQuery A) (value : Option String) :
    EditorQuery A :=
  { query with csvFileName := value }

/-- The rule list `UnifiedAlertList` renders: the filtered-and-sorted rules
in full when they fit within `maxItems`, otherwise their first `maxItems`
entries.  Translated from the `rulesToDisplay` expression in the panel
source. -/
def rulesToDisplay {R : Type} (maxItems : Nat) (rules : List R) : List R :=
  if rules.length ≤ maxItems then rules else rules.take maxItems

end UiSpec

namespace CsvSpec

/-! ### Tokenizer lemmas -/

theorem splitChar_ne_nil (sep : Char) : ∀ cs, splitChar sep cs ≠ []
  | [] => by simp [splitChar]
  | c :: cs => by
    by_cases h : c = sep
    · simp [splitChar, h]
    · simp only [splitChar, if_neg h]
      cases hs : splitChar sep cs with
      | nil => simp
      | cons t ts => simp

theorem splitChar_append_sep (sep : Char) (cs : List Char) :
    splitChar sep (cs ++ [sep]) = splitChar sep cs ++ [[]] := by
  induction cs with
  | nil => simp [splitChar]
  | cons c cs ih =>
    by_cases h : c = sep
    · simp [splitChar, h, ih]
    · simp only [List.cons_append, splitChar, if_neg h, ih]
      cases hs : splitChar sep cs with
      | nil => exact absurd hs (splitChar_ne_nil sep cs)
      | cons t ts => simp only [List.append_eq, ih, hs]; simp

theorem tokenizeLine_append_comma (line : String) :
    tokenizeLine (line ++ ",") = tokenizeLine line ++ [""] := by
  unfold tokenizeLine
  rw [String.data_append, show (",".data : List Char) = [','] from rfl,
    splitChar_append_sep, List.map_append]
  rfl

/-! ### Null-token lemmas -/

theorem buildValue_null (ty : FieldType) (t : String)
    (h : isNullToken t = true) : buildValue ty t = Value.null := by
  unfold buildValue
  rw [h]
  rfl

theorem nonNullTokens_idem (tokens : List String) :
    nonNullTokens (nonNullTokens tokens) = nonNullTokens tokens := by
  unfold nonNullTokens
  rw [List.filter_filter]
  simp

/-! ### Parser lemmas: heads of numeric tokens are never boolean -/

theorem asciiToLower_of_digit (c : Char) (h : isDigitChar c = true) :
    asciiToLower c = c := by
  have hc := of_decide_eq_true h
  unfold asciiToLower
  rw [if_neg]
  omega

theorem asciiToLower_ne_tf (c : Char)
    (h : isDigitChar c = true ∨ c = '-' ∨ c = '+' ∨ c = '.') :
    asciiToLower c ≠ 't' ∧ asciiToLower c ≠ 'f' := by
  rcases h with h | rfl | rfl | rfl
  · rw [asciiToLower_of_digit c h]
    constructor
    · intro heq; rw [heq] at h; exact absurd h (by decide)
    · intro heq; rw [heq] at h; exact absurd h (by decide)
  · exact ⟨by decide, by decide⟩
  · exact ⟨by decide, by decide⟩
  · exact ⟨by decide, by decide⟩

theorem parseBoolChars_cons_none (a : Char) (xs : List Char)
    (ht : a ≠ 't') (hf : a ≠ 'f') : parseBoolChars (a :: xs) = none := by
  unfold parseBoolChars
  rw [if_neg, if_neg]
  · intro hc
    rcases hc with hc | hc <;> exact hf (List.head_eq_of_cons_eq hc)
  · intro hc
    rcases hc with hc | hc <;> exact ht (List.head_eq_of_cons_eq hc)

theorem parseBool_none_of_head (t : String) (c : Char) (rest : List Char)
    (hd : t.data = c :: rest)
    (hc : isDigitChar c = true ∨ c = '-' ∨ c = '+' ∨ c = '.') :
    parseBool t = none := by
  obtain ⟨ht, hf⟩ := asciiToLower_ne_tf c hc
  unfold parseBool
  rw [hd, List.map_cons]
  exact parseBoolChars_cons_none _ _ ht hf

theorem takeDigits_of_all (l : List Char)
    (h : ∀ c ∈ l, isDigitChar c = true) : takeDigits l = (l, []) := by
  induction l with
  | nil => rfl
  | cons c cs ih =>
    unfold takeDigits
    rw [if_pos (h c (List.mem_cons_self c cs)), ih (fun x hx => h x (List.mem_cons_of_mem c hx))]

theorem parseNatDigits_eq_some (cs : List Char) (n : Nat)
    (h : parseNatDigits cs = some n) :
    cs ≠ [] ∧ (∀ c ∈ cs, isDigitChar c = true) ∧ n = digitsToNat cs := by
  unfold parseNatDigits at h
  by_cases hc : cs ≠ [] ∧ cs.all isDigitChar
  · rw [if_pos hc] at h
    exact ⟨hc.1, List.all_eq_true.mp hc.2, (Option.some.injEq .. ▸ h).symm⟩
  · rw [if_neg hc] at h
    cases h

theorem parseUnsignedDec_of_digits (cs : List Char) (n : Nat)
    (h : parseNatDigits cs = some n) :
    parseUnsignedDec cs = some ⟨Int.ofNat n, 0⟩ := by
  obtain ⟨hne, hdig, hn⟩ := parseNatDigits_eq_some cs n h
  have htd : takeDigits cs = (cs, []) := takeDigits_of_all cs hdig
  subst hn
  simp [parseUnsignedDec, htd, takeFrac, hne, mantOf, digitsToNat]

theorem parseIntRaw_cases (cs : List Char) (v : Int)
    (h : parseIntRaw cs = some v) :
    (∃ ds n, cs = '-' :: ds ∧ parseNatDigits ds = some n ∧ v = -(Int.ofNat n)) ∨
    (∃ ds n, cs = '+' :: ds ∧ parseNatDigits ds = some n ∧ v = Int.ofNat n) ∨
    (∃ n, parseNatDigits cs = some n ∧ v = Int.ofNat n) := by
  cases cs with
  | nil => cases h
  | cons c rest =>
    simp only [parseIntRaw] at h
    by_cases hm : c = '-'
    · rw [if_pos hm] at h
      obtain ⟨n, hn, hv⟩ := Option.map_eq_some'.mp h
      exact Or.inl ⟨rest, n, by rw [hm], hn, hv.symm⟩
    · rw [if_neg hm] at h
      by_cases hp : c = '+'
      · rw [if_pos hp] at h
        obtain ⟨n, hn, hv⟩ := Option.map_eq_some'.mp h
        exact Or.inr (Or.inl ⟨rest, n, by rw [hp], hn, hv.symm⟩)
      · rw [if_neg hp] at h
        obtain ⟨n, hn, hv⟩ := Option.map_eq_some'.mp h
        exact Or.inr (Or.inr ⟨n, hn, hv.symm⟩)

theorem parseIntRaw_head (cs : List Char) (v : Int)
    (h : parseIntRaw cs = some v) :
    ∃ c rest, cs = c :: rest ∧ (isDigitChar c = true ∨ c = '-' ∨ c = '+') := by
  rcases parseIntRaw_cases cs v h with ⟨ds, n, hcs, _, _⟩ | ⟨ds, n, hcs, _, _⟩ | ⟨n, hn, _⟩
  · exact ⟨'-', ds, hcs, Or.inr (Or.inl rfl)⟩
  · exact ⟨'+', ds, hcs, Or.inr (Or.inr rfl)⟩
  · obtain ⟨hne, hdig, _⟩ := parseNatDigits_eq_some cs n hn
    cases cs with
    | nil => exact absurd rfl hne
    | cons c rest =>
      exact ⟨c, rest, rfl, Or.inl (hdig c (List.mem_cons_self c rest))⟩

theorem parseUnsignedDec_head (c : Char) (rest : List Char) (d : Dec)
    (h : parseUnsignedDec (c :: rest) = some d) :
    isDigitChar c = true ∨ c = '.' := by
  by_contra hcon
  push_neg at hcon
  obtain ⟨hnd, hdot⟩ := hcon
  have hnd' : isDigitChar c = false := by
    cases hv : isDigitChar c
    · rfl
    · exact absurd hv hnd
  have htd : takeDigits (c :: rest) = ([], c :: rest) := by
    simp [takeDigits, hnd']
  have htf : takeFrac (c :: rest) = ([], c :: rest) := by
    simp [takeFrac, hdot]
  simp [parseUnsignedDec, htd, htf] at h

theorem parseSignedDec_head (cs : List Char) (d : Dec)
    (h : parseSignedDec cs = some d) :
    ∃ c rest, cs = c :: rest ∧
      (isDigitChar c = true ∨ c = '-' ∨ c = '+' ∨ c = '.') := by
  cases cs with
  | nil => cases h
  | cons c rest =>
    by_cases hm : c = '-'
    · exact ⟨c, rest, rfl, Or.inr (Or.inl hm)⟩
    · by_cases hp : c = '+'
      · exact ⟨c, rest, rfl, Or.inr (Or.inr (Or.inl hp))⟩
      · simp only [parseSignedDec] at h
        rw [if_neg hm, if_neg hp] at h
        rcases parseUnsignedDec_head c rest d h with hd | hd
        · exact ⟨c, rest, rfl, Or.inl hd⟩
        · exact ⟨c, rest, rfl, Or.inr (Or.inr (Or.inr hd))⟩

theorem parseBool_none_of_intRaw (t : String) (v : Int)
    (h : parseIntRaw t.data = some v) : parseBool t = none := by
  obtain ⟨c, rest, hd, hc⟩ := parseIntRaw_head t.data v h
  refine parseBool_none_of_head t c rest hd ?_
  rcases hc with hc | hc | hc
  · exact Or.inl hc
  · exact Or.inr (Or.inl hc)
  · exact Or.inr (Or.inr (Or.inl hc))

theorem parseBool_none_of_signedDec (t : String) (d : Dec)
    (h : parseSignedDec t.data = some d) : parseBool t = none := by
  obtain ⟨c, rest, hd, hc⟩ := parseSignedDec_head t.data d h
  exact parseBool_none_of_head t c rest hd hc

theorem isBoolTok_false_of_int (t : String) (h : isIntTok t = true) :
    isBoolTok t = false := by
  unfold isIntTok parseInt64 at h
  cases hr : parseIntRaw t.data with
  | none => rw [hr] at h; cases h
  | some v =>
    unfold isBoolTok
    rw [parseBool_none_of_intRaw t v hr]
    rfl

theorem isBoolTok_false_of_float (t : String) (h : isFloatTok t = true) :
    isBoolTok t = false := by
  unfold isFloatTok parseFloat64 at h
  cases hr : parseSignedDec t.data with
  | none => rw [hr] at h; cases h
  | some d =>
    unfold isBoolTok
    rw [parseBool_none_of_signedDec t d hr]
    rfl

/-- An in-range 64-bit integer token always parses under the Float
candidate as well: its value fits well inside the float-compatible
range. -/
theorem isFloatTok_of_int (t : String) (h : isIntTok t = true) :
    isFloatTok t = true := by
  unfold isIntTok parseInt64 at h
  cases hr : parseIntRaw t.data with
  | none => simp only [hr] at h; cases h
  | some v =>
    simp only [hr] at h
    by_cases hrange : -(2 ^ 63) ≤ v ∧ v ≤ 2 ^ 63 - 1
    · have habs : v.natAbs ≤ 2 ^ 63 := by omega
      have hbound : v.natAbs ≤ float64MaxNat :=
        Nat.le_trans habs (by decide)
      have hsd : parseSignedDec t.data = some ⟨v, 0⟩ := by
        rcases parseIntRaw_cases t.data v hr with
          ⟨ds, n, hcs, hn, hv⟩ | ⟨ds, n, hcs, hn, hv⟩ | ⟨n, hn, hv⟩
        · rw [hcs]
          simp only [parseSignedDec]
          rw [if_pos trivial, parseUnsignedDec_of_digits ds n hn, hv]
          rfl
        · rw [hcs]
          simp only [parseSignedDec]
          rw [parseUnsignedDec_of_digits ds n hn, hv]
          simp
        · obtain ⟨hne, hdig, _⟩ := parseNatDigits_eq_some _ n hn
          cases hcs : t.data with
          | nil => exact absurd (hcs ▸ hn : parseNatDigits [] = some n) (by intro hx; cases hx)
          | cons c rest =>
            have hcd : isDigitChar c = true :=
              hdig c (hcs ▸ List.mem_cons_self c rest)
            have hcm : c ≠ '-' := by
              intro hx; rw [hx] at hcd; exact absurd hcd (by decide)
            have hcp : c ≠ '+' := by
              intro hx; rw [hx] at hcd; exact absurd hcd (by decide)
            simp only [parseSignedDec]
            rw [if_neg hcm, if_neg hcp, ← hcs, parseUnsignedDec_of_digits _ n hn, hv]
      unfold isFloatTok parseFloat64
      simp only [hsd]
      have hfr : inFloat64Range ⟨v, 0⟩ = true := by
        unfold inFloat64Range
        simp only [pow_zero, mul_one]
        exact decide_eq_true hbound
      rw [hfr]
      rfl
    · rw [if_neg hrange] at h
      cases h

theorem all_false_of_mem {α : Type _} (p : α → Bool) (l : List α) (x : α)
    (hx : x ∈ l) (hpx : p x = false) : l.all p = false := by
  cases hall : l.all p
  · rfl
  · have := List.all_eq_true.mp hall x hx
    rw [hpx] at this
    cases this

/-! ### Transposer and assembler lemmas -/

theorem findWidthMismatch_of_bad (w : Nat) :
    ∀ (rows : List (List String)) (i : Nat),
      (∃ r ∈ rows, r.length ≠ w) →
      ∃ j a, findWidthMismatch w rows i = some (j, a) ∧ a ≠ w := by
  intro rows
  induction rows with
  | nil =>
    intro i h
    obtain ⟨r, hr, _⟩ := h
    exact absurd hr (List.not_mem_nil r)
  | cons r rs ih =>
    intro i h
    by_cases hw : r.length = w
    · have htail : ∃ r' ∈ rs, r'.length ≠ w := by
        obtain ⟨r', hr', hne⟩ := h
        rcases List.mem_cons.mp hr' with rfl | hmem
        · exact absurd hw hne
        · exact ⟨r', hmem, hne⟩
      obtain ⟨j, a, hfind, hne⟩ := ih (i + 1) htail
      refine ⟨j, a, ?_, hne⟩
      rw [findWidthMismatch, if_pos hw]
      exact hfind
    · exact ⟨i, r.length, by rw [findWidthMismatch, if_neg hw], hw⟩

theorem assembleOrError_ok (nm : String) (names : List String)
    (rows : List (List String)) (fr : Frame)
    (h : assembleOrError nm names rows = Except.ok fr) :
    fr = ⟨nm, buildFields names rows⟩ := by
  unfold assembleOrError at h
  cases hm : findWidthMismatch names.length rows 0 with
  | some p => rw [hm] at h; cases h
  | none =>
    rw [hm] at h
    injection h with h
    exact h.symm

theorem getD_range {α : Type _} : ∀ (l : List α) (d : α),
    (List.range l.length).map (fun j => l.getD j d) = l
  | [], _ => rfl
  | x :: xs, d => by
    rw [List.length_cons, List.range_succ_eq_map, List.map_cons, List.map_map]
    simp only [Function.comp_def, Nat.succ_eq_add_one, List.getD_cons_zero,
      List.getD_cons_succ]
    rw [getD_range xs d]

theorem buildFields_names (names : List String) (rows : List (List String)) :
    (buildFields names rows).map Field.name = names := by
  unfold buildFields
  rw [List.map_map]
  have : (Field.name ∘ fun j => mkField (names.getD j "")
      (rows.map (fun r => r.getD j ""))) = fun j => names.getD j "" := by
    funext j
    rfl
  rw [this, getD_range]

theorem buildFields_values_len (names : List String) (rows : List (List String)) :
    ∀ f ∈ buildFields names rows, f.values.length = rows.length := by
  intro f hf
  unfold buildFields at hf
  obtain ⟨j, _, rfl⟩ := List.mem_map.mp hf
  simp [mkField]

end CsvSpec

/-- Claim C1: the Type Classifier tries candidates in the fixed order
Boolean, Integer, Float, String and commits the first under which every
non-null token parses: an all-boolean column (non-empty) infers Boolean,
an all-integer column infers Integer, an all-float column with at least
one non-integer token infers Float, a column with a non-boolean and a
non-float token infers String, and a column with zero non-null tokens
infers String. -/
theorem c1_type_classifier (tokens : List String) :
    (CsvSpec.nonNullTokens tokens = [] →
      CsvSpec.classifyColumn tokens = CsvSpec.FieldType.str) ∧
    (CsvSpec.nonNullTokens tokens ≠ [] →
      (∀ t ∈ CsvSpec.nonNullTokens tokens, CsvSpec.isBoolTok t = true) →
      CsvSpec.classifyColumn tokens = CsvSpec.FieldType.boolean) ∧
    (CsvSpec.nonNullTokens tokens ≠ [] →
      (∀ t ∈ CsvSpec.nonNullTokens tokens, CsvSpec.isIntTok t = true) →
      CsvSpec.classifyColumn tokens = CsvSpec.FieldType.integer) ∧
    (CsvSpec.nonNullTokens tokens ≠ [] →
      (∃ t ∈ CsvSpec.nonNullTokens tokens, CsvSpec.isIntTok t = false) →
      (∀ t ∈ CsvSpec.nonNullTokens tokens, CsvSpec.isFloatTok t = true) →
      CsvSpec.classifyColumn tokens = CsvSpec.FieldType.float) ∧
    ((∃ t ∈ CsvSpec.nonNullTokens tokens, CsvSpec.isBoolTok t = false) →
      (∃ t ∈ CsvSpec.nonNullTokens tokens, CsvSpec.isFloatTok t = false) →
      CsvSpec.classifyColumn tokens = CsvSpec.FieldType.str) := by
  refine ⟨?_, ?_, ?_, ?_, ?_⟩
  · intro h
    simp [CsvSpec.classifyColumn, h]
  · intro hne hall
    have h1 : (CsvSpec.nonNullTokens tokens).isEmpty = false :=
      List.isEmpty_eq_false.mpr hne
    have h2 : (CsvSpec.nonNullTokens tokens).all CsvSpec.isBoolTok = true :=
      List.all_eq_true.mpr hall
    simp [CsvSpec.classifyColumn, h1, h2]
  · intro hne hall
    have h1 : (CsvSpec.nonNullTokens tokens).isEmpty = false :=
      List.isEmpty_eq_false.mpr hne
    obtain ⟨t0, ht0⟩ := List.exists_mem_of_ne_nil _ hne
    have h2 : (CsvSpec.nonNullTokens tokens).all CsvSpec.isBoolTok = false :=
      CsvSpec.all_false_of_mem _ _ t0 ht0
        (CsvSpec.isBoolTok_false_of_int t0 (hall t0 ht0))
    have h3 : (CsvSpec.nonNullTokens tokens).all CsvSpec.isIntTok = true :=
      List.all_eq_true.mpr hall
    simp [CsvSpec.classifyColumn, h1, h2, h3]
  · intro hne hex hall
    have h1 : (CsvSpec.nonNullTokens tokens).isEmpty = false :=
      List.isEmpty_eq_false.mpr hne
    obtain ⟨t0, ht0⟩ := List.exists_mem_of_ne_nil _ hne
    have h2 : (CsvSpec.nonNullTokens tokens).all CsvSpec.isBoolTok = false :=
      CsvSpec.all_false_of_mem _ _ t0 ht0
        (CsvSpec.isBoolTok_false_of_float t0 (hall t0 ht0))
    obtain ⟨t1, ht1, hi1⟩ := hex
    have h3 : (CsvSpec.nonNullTokens tokens).all CsvSpec.isIntTok = false :=
      CsvSpec.all_false_of_mem _ _ t1 ht1 hi1
    have h4 : (CsvSpec.nonNullTokens tokens).all CsvSpec.isFloatTok = true :=
      List.all_eq_true.mpr hall
    simp [CsvSpec.classifyColumn, h1, h2, h3, h4]
  · intro hb hf
    obtain ⟨tb, htb, hbf⟩ := hb
    obtain ⟨tg, htg, hgf⟩ := hf
    have hne : CsvSpec.nonNullTokens tokens ≠ [] := by
      intro h0
      rw [h0] at htb
      exact List.not_mem_nil tb htb
    have h1 : (CsvSpec.nonNullTokens tokens).isEmpty = false :=
      List.isEmpty_eq_false.mpr hne
    have h2 : (CsvSpec.nonNullTokens tokens).all CsvSpec.isBoolTok = false :=
      CsvSpec.all_false_of_mem _ _ tb htb hbf
    have hint : CsvSpec.isIntTok tg = false := by
      cases hi : CsvSpec.isIntTok tg
      · rfl
      · rw [CsvSpec.isFloatTok_of_int tg hi] at hgf
        cases hgf
    have h3 : (CsvSpec.nonNullTokens tokens).all CsvSpec.isIntTok = false :=
      CsvSpec.all_false_of_mem _ _ tg htg hint
    have h4 : (CsvSpec.nonNullTokens tokens).all CsvSpec.isFloatTok = false :=
      CsvSpec.all_false_of_mem _ _ tg htg hgf
    simp [CsvSpec.classifyColumn, h1, h2, h3, h4]

/-- Witness for claim C1 at a concrete input: an all-boolean column
infers Boolean. -/
theorem c1_type_classifier_witness :
    (∀ t ∈ CsvSpec.nonNullTokens ["T", "f"], CsvSpec.isBoolTok t = true) ∧
    CsvSpec.classifyColumn ["T", "f"] = CsvSpec.FieldType.boolean :=
  ⟨by decide, (c1_type_classifier ["T", "f"]).2.1 (by decide) (by decide)⟩

/-- Claim C8: integers are held in a 64-bit signed representation; a
column of numeric tokens where some token's integer parse overflows the
64-bit signed range falls through to Float, and if any single token also
exceeds the 64-bit float-compatible range the column falls through to
String. -/
theorem c8_integer_overflow (tokens : List String)
    (_hnum : ∀ t ∈ CsvSpec.nonNullTokens tokens,
      (CsvSpec.parseSignedDec t.data).isSome = true)
    (hover : ∃ t ∈ CsvSpec.nonNullTokens tokens, ∃ v : Int,
      CsvSpec.parseIntRaw t.data = some v ∧
        (v < -(2 ^ 63) ∨ 2 ^ 63 - 1 < v)) :
    ((∀ t ∈ CsvSpec.nonNullTokens tokens, CsvSpec.isFloatTok t = true) →
      CsvSpec.classifyColumn tokens = CsvSpec.FieldType.float) ∧
    ((∃ t ∈ CsvSpec.nonNullTokens tokens, CsvSpec.isFloatTok t = false) →
      CsvSpec.classifyColumn tokens = CsvSpec.FieldType.str) := by
  obtain ⟨t0, ht0, v, hv, hr⟩ := hover
  have hint0 : CsvSpec.isIntTok t0 = false := by
    unfold CsvSpec.isIntTok CsvSpec.parseInt64
    simp only [hv]
    rw [if_neg (by omega)]
    rfl
  have hbool0 : CsvSpec.isBoolTok t0 = false := by
    unfold CsvSpec.isBoolTok
    rw [CsvSpec.parseBool_none_of_intRaw t0 v hv]
    rfl
  have hne : CsvSpec.nonNullTokens tokens ≠ [] := by
    intro h0
    rw [h0] at ht0
    exact List.not_mem_nil t0 ht0
  have h1 : (CsvSpec.nonNullTokens tokens).isEmpty = false :=
    List.isEmpty_eq_false.mpr hne
  have h2 : (CsvSpec.nonNullTokens tokens).all CsvSpec.isBoolTok = false :=
    CsvSpec.all_false_of_mem _ _ t0 ht0 hbool0
  have h3 : (CsvSpec.nonNullTokens tokens).all CsvSpec.isIntTok = false :=
    CsvSpec.all_false_of_mem _ _ t0 ht0 hint0
  constructor
  · intro hall
    have h4 : (CsvSpec.nonNullTokens tokens).all CsvSpec.isFloatTok = true :=
      List.all_eq_true.mpr hall
    simp [CsvSpec.classifyColumn, h1, h2, h3, h4]
  · intro hex
    obtain ⟨t1, ht1, hf1⟩ := hex
    have h4 : (CsvSpec.nonNullTokens tokens).all CsvSpec.isFloatTok = false :=
      CsvSpec.all_false_of_mem _ _ t1 ht1 hf1
    simp [CsvSpec.classifyColumn, h1, h2, h3, h4]

/-- Witness for claim C8 at a concrete input: a 20-digit integer token
overflows 64-bit signed integers but fits the float range, so the column
falls through to Float. -/
theorem c8_integer_overflow_witness :
    CsvSpec.classifyColumn ["99999999999999999999"] = CsvSpec.FieldType.float :=
  (c8_integer_overflow ["99999999999999999999"] (by decide)
    ⟨"99999999999999999999", by decide, 99999999999999999999,
      by decide, by decide⟩).1 (by decide)

/-- Claim C3: whenever a CSV body contains a data row whose token count
differs from the header's width (or from the first data row's width in
headerless mode), ingestion fails with a RowWidthMismatch error that
carries the row index and both widths, and no Frame is returned. -/
theorem c3_row_width_mismatch (hasHeader : Bool) (nm text : String)
    (h : ∃ r ∈ CsvSpec.dataRowsOf hasHeader text,
      (CsvSpec.tokenizeLine r).length ≠
        (CsvSpec.headerTokens hasHeader text).length) :
    ∃ i a, CsvSpec.readCSV hasHeader nm text =
        Except.error (CsvSpec.CsvError.rowWidthMismatch i
          (CsvSpec.headerTokens hasHeader text).length a) ∧
      a ≠ (CsvSpec.headerTokens hasHeader text).length := by
  have h' : ∃ r' ∈ (CsvSpec.dataRowsOf hasHeader text).map CsvSpec.tokenizeLine,
      r'.length ≠ (CsvSpec.headerTokens hasHeader text).length := by
    obtain ⟨r, hr, hne⟩ := h
    exact ⟨CsvSpec.tokenizeLine r, List.mem_map_of_mem _ hr, hne⟩
  obtain ⟨j, a, hfind, hne⟩ :=
    CsvSpec.findWidthMismatch_of_bad _ _ 0 h'
  refine ⟨j, a, ?_, hne⟩
  unfold CsvSpec.readCSV CsvSpec.assembleOrError
  rw [hfind]

/-- Witness for claim C3 at a concrete input: a two-column header with a
one-token data row fails with RowWidthMismatch. -/
theorem c3_row_width_mismatch_witness :
    ∃ i a, CsvSpec.readCSV true "t" "a,b\nx" =
        Except.error (CsvSpec.CsvError.rowWidthMismatch i
          (CsvSpec.headerTokens true "a,b\nx").length a) ∧
      a ≠ (CsvSpec.headerTokens true "a,b\nx").length :=
  c3_row_width_mismatch true "t" "a,b\nx" (by decide)

/-- Claim C5: every Frame produced by an ingestion call has Fields of
equal length (each equals the data-row count), in the same order as the
source columns; with a header, the field names and order (hence the field
count) match the header exactly. -/
theorem c5_frame_invariants (hasHeader : Bool) (nm text : String)
    (fr : CsvSpec.Frame)
    (h : CsvSpec.readCSV hasHeader nm text = Except.ok fr) :
    fr.name = nm ∧
    (∀ f ∈ fr.fields,
      f.values.length = (CsvSpec.dataRowsOf hasHeader text).length) ∧
    fr.fields.map CsvSpec.Field.name = CsvSpec.headerTokens hasHeader text := by
  unfold CsvSpec.readCSV at h
  have hfr := CsvSpec.assembleOrError_ok _ _ _ _ h
  subst hfr
  refine ⟨rfl, ?_, ?_⟩
  · intro f hf
    have := CsvSpec.buildFields_values_len _ _ f hf
    rw [this, List.length_map]
  · exact CsvSpec.buildFields_names _ _

/-- Witness for claim C5 at a concrete input: a two-column CSV with header
`a,b` and one data row. -/
theorem c5_frame_invariants_witness :
    (["x"] : List String) = ["x"] ∧
    ((CsvSpec.Frame.mk "x"
        [⟨"a", CsvSpec.FieldType.integer, [CsvSpec.Value.vInt 1]⟩,
         ⟨"b", CsvSpec.FieldType.integer, [CsvSpec.Value.vInt 2]⟩]).name = "x" ∧
      (∀ f ∈ (CsvSpec.Frame.mk "x"
        [⟨"a", CsvSpec.FieldType.integer, [CsvSpec.Value.vInt 1]⟩,
         ⟨"b", CsvSpec.FieldType.integer, [CsvSpec.Value.vInt 2]⟩]).fields,
        f.values.length = (CsvSpec.dataRowsOf true "a,b\n1,2").length) ∧
      (CsvSpec.Frame.mk "x"
        [⟨"a", CsvSpec.FieldType.integer, [CsvSpec.Value.vInt 1]⟩,
         ⟨"b", CsvSpec.FieldType.integer, [CsvSpec.Value.vInt 2]⟩]).fields.map
          CsvSpec.Field.name = CsvSpec.headerTokens true "a,b\n1,2") :=
  ⟨rfl, c5_frame_invariants true "x" "a,b\n1,2"
    (CsvSpec.Frame.mk "x"
      [⟨"a", CsvSpec.FieldType.integer, [CsvSpec.Value.vInt 1]⟩,
       ⟨"b", CsvSpec.FieldType.integer, [CsvSpec.Value.vInt 2]⟩]) rfl⟩

/-- Claim C9: for every query object and every selected file value, the
CSVFileEditor change handler calls `onChange` with an object whose
`csvFileName` field equals the newly selected value and whose every other
field equals the corresponding field of the incoming query. -/
theorem c9_csv_file_editor_on_change {A : Type} (q : UiSpec.EditorQuery A)
    (v : Option String) :
    (UiSpec.onChangeFileName q v).csvFileName = v ∧
      (UiSpec.onChangeFileName q v).others = q.others :=
  ⟨rfl, rfl⟩

/-- Claim C10: for every non-negative `maxItems` and every rule list, the
list UnifiedAlertList renders has length `min` of the rule count and
`maxItems`; a longer list is truncated to its first `maxItems` entries and
a shorter one is shown in full. -/
theorem c10_alert_list_truncation {R : Type} (maxItems : Nat) (rules : List R) :
    (UiSpec.rulesToDisplay maxItems rules).length = min rules.length maxItems ∧
      (rules.length ≤ maxItems → UiSpec.rulesToDisplay maxItems rules = rules) ∧
      (maxItems < rules.length →
        UiSpec.rulesToDisplay maxItems rules = rules.take maxItems) := by
  unfold UiSpec.rulesToDisplay
  by_cases h : rules.length ≤ maxItems
  · rw [if_pos h]
    exact ⟨(Nat.min_eq_left h).symm, fun _ => rfl, fun h2 => absurd h (Nat.not_le_of_lt h2)⟩
  · rw [if_neg h]
    refine ⟨?_, fun h2 => absurd h2 h, fun _ => rfl⟩
    rw [List.length_take, Nat.min_comm]

/-- Witness for claim C10 at a concrete input: three rules truncated to
two. -/
theorem c10_alert_list_truncation_witness :
    2 < 3 ∧ UiSpec.rulesToDisplay 2 [10, 20, 30] = [10, 20, 30].take 2 :=
  ⟨by decide, (c10_alert_list_truncation 2 [10, 20, 30]).2.2 (by decide)⟩

/-- Claim C6: the Tokenizer splits on commas into whitespace-trimmed
tokens and preserves empty trailing tokens as empty-string tokens rather
than dropping them (appending a trailing comma appends exactly one empty
token); hence the line `T, F,F,T  ,` yields a Boolean field with values
true, false, false, true, Null. -/
theorem c6_tokenizer_trailing_empty :
    (∀ line : String, CsvSpec.tokenizeLine (line ++ ",") =
      CsvSpec.tokenizeLine line ++ [""]) ∧
    CsvSpec.csvLineToField "T, F,F,T  ," =
      { name := "", type := CsvSpec.FieldType.boolean,
        values := [CsvSpec.Value.vBool true, CsvSpec.Value.vBool false,
          CsvSpec.Value.vBool false, CsvSpec.Value.vBool true,
          CsvSpec.Value.null] } :=
  ⟨CsvSpec.tokenizeLine_append_comma, by decide⟩

/-- Claim C2: a token that (after trimming) is the empty string or the
case-sensitive literal `null` always becomes Null in the built column,
regardless of the type inferred for the column, and null tokens never
participate in type inference (classification only depends on the
non-null tokens). -/
theorem c2_null_tokens :
    (∀ (name : String) (tokens : List String) (i : Nat) (t : String),
      tokens[i]? = some t → CsvSpec.isNullToken t = true →
      (CsvSpec.mkField name tokens).values[i]? = some CsvSpec.Value.null) ∧
    (∀ tokens : List String,
      CsvSpec.classifyColumn tokens =
        CsvSpec.classifyColumn (CsvSpec.nonNullTokens tokens)) := by
  constructor
  · intro name tokens i t hget hnull
    show (tokens.map (CsvSpec.buildValue (CsvSpec.classifyColumn tokens)))[i]? = _
    rw [List.getElem?_map, hget, Option.map_some']
    rw [CsvSpec.buildValue_null _ _ hnull]
  · intro tokens
    unfold CsvSpec.classifyColumn
    rw [CsvSpec.nonNullTokens_idem]

/-- Witness for claim C2 at a concrete input: the literal `null` token in
an integer column becomes Null. -/
theorem c2_null_tokens_witness :
    (CsvSpec.mkField "x" ["1", "null"]).values[1]? = some CsvSpec.Value.null :=
  c2_null_tokens.1 "x" ["1", "null"] 1 "null" (by decide) (by decide)

/-- Claim C4: whenever the File Resolver's containment check rejects a
name (its normalized resolution leaves the base data directory, which
covers `..` traversal and absolute paths), `loadCsvFile` fails with an
InvalidFileName error and returns no Frame, whatever the file system
holds; in particular `loadCsvFile` on `../secret.csv` fails this way. -/
theorem c4_invalid_file_name :
    (∀ (fs : String → Option String) (name : String),
      CsvSpec.isValidCsvName name = false →
      CsvSpec.loadCsvFile fs name =
        Except.error (CsvSpec.CsvError.invalidFileName name)) ∧
    (∀ fs : String → Option String,
      CsvSpec.loadCsvFile fs "../secret.csv" =
        Except.error (CsvSpec.CsvError.invalidFileName "../secret.csv")) := by
  have h : ∀ (fs : String → Option String) (name : String),
      CsvSpec.isValidCsvName name = false →
      CsvSpec.loadCsvFile fs name =
        Except.error (CsvSpec.CsvError.invalidFileName name) := by
    intro fs name hv
    unfold CsvSpec.loadCsvFile
    rw [hv]
    rfl
  exact ⟨h, fun fs => h fs "../secret.csv" (by decide)⟩

/-- Witness for claim C4 at a concrete input: a traversal name is rejected
without consulting the file system. -/
theorem c4_invalid_file_name_witness :
    CsvSpec.loadCsvFile (fun _ => some "a\n1") "../x" =
      Except.error (CsvSpec.CsvError.invalidFileName "../x") :=
  c4_invalid_file_name.1 (fun _ => some "a\n1") "../x" (by decide)

/-- Claim C7: ingestion is a deterministic function of its input — two
ingestions of identical input produce identical serialized output for
valid CSV, and the very same error value (kind and payload) for erroneous
input. -/
theorem c7_deterministic_ingestion (hasHeader : Bool) (nm t1 t2 : String)
    (h : t1 = t2) :
    Except.map CsvSpec.serializeFrame (CsvSpec.readCSV hasHeader nm t1) =
      Except.map CsvSpec.serializeFrame (CsvSpec.readCSV hasHeader nm t2) ∧
    (∀ e1 e2 : CsvSpec.CsvError,
      CsvSpec.readCSV hasHeader nm t1 = Except.error e1 →
      CsvSpec.readCSV hasHeader nm t2 = Except.error e2 → e1 = e2) := by
  subst h
  refine ⟨rfl, fun e1 e2 h1 h2 => ?_⟩
  rw [h1] at h2
  exact (Except.error.injEq .. ▸ h2 : e1 = e2)

/-- Witness for claim C7 at a concrete input. -/
theorem c7_deterministic_ingestion_witness :
    Except.map CsvSpec.serializeFrame (CsvSpec.readCSV true "n" "a\n1") =
      Except.map CsvSpec.serializeFrame (CsvSpec.readCSV true "n" "a\n1") :=
  (c7_deterministic_ingestion true "n" "a\n1" "a\n1" rfl).1
